import Mathlib

/-!
# Verification of pyStickerCreator

A shallow embedding of `src/pyStickerCreator.py` (a CSV → PDF sticker/label
generator) together with proofs about its sanitizers, header-column
resolution, shrink-to-fit font sizing, barcode fitting and carton expansion.

Conventions of the embedding:
* Python strings are `String`; `None` is `Option.none`.
* Python floats are modelled as exact rationals `ℚ`.
* The external PDF/barcode renderer (reportlab) is modelled from the spec:
  drawing calls become constructors of `DrawOp`, text measurement is an
  abstract parameter `sw`, and the Code128 renderer is a linear-width model
  (see `code128Modules`).
-/

namespace StickerCreator

/-! ## Character-level helpers -/

/-- Python `str.strip()` on a list of characters: remove leading and trailing
whitespace. -/
def pyStrip (l : List Char) : List Char :=
  ((l.dropWhile Char.isWhitespace).reverse.dropWhile Char.isWhitespace).reverse

/-- The digit characters of a (stripped) cell, in order.  This is the result
of Python `re.sub(r"\D", "", s)` applied after `strip()`
(`src/pyStickerCreator.py` line 54). -/
def digitChars (s : String) : List Char :=
  (pyStrip s.toList).filter Char.isDigit

/-! ## Sanitizers (`src/pyStickerCreator.py` lines 51-92) -/

/-- `sanitize_numeric_keep_zeros` (lines 51-55): keep only the digit
characters of the trimmed input; empty result (or `None` input) falls back to
the default. -/
def sanitize_numeric_keep_zeros (value : Option String) (default : Option String) :
    Option String :=
  match value with
  | none => default
  | some v =>
    let s := String.mk (digitChars v)
    if s = "" then default else some s

/-- `sanitize_any` (lines 58-62): trim surrounding whitespace; empty result
(or `None` input) falls back to the default. -/
def sanitize_any (value : Option String) (default : Option String) : Option String :=
  match value with
  | none => default
  | some v =>
    let s := String.mk (pyStrip v.toList)
    if s = "" then default else some s

/-- `strip_leading_zeros_keep_zero` (lines 65-68): digit-sanitize with
default "0", strip leading '0' characters, and restore "0" if nothing is
left. -/
def strip_leading_zeros_keep_zero (s : Option String) : String :=
  let s1 := (sanitize_numeric_keep_zeros s (some "0")).getD "0"
  let s2 := String.mk (s1.toList.dropWhile (fun c => c = '0'))
  if s2 = "" then "0" else s2

/-- The characters replaced by an underscore in `safe_filename_component`
(line 73, regex character class `[\/*?:"<>|]`). -/
def isFilenameBad (c : Char) : Bool :=
  c = '/' || c = '*' || c = '?' || c = ':' || c = '"' || c = '<' || c = '>' || c = '|'

/-- Collapse every maximal run of whitespace characters to a single space,
Python `re.sub(r"\s+", " ", s)` (line 74). -/
def collapseWs : List Char → List Char
  | [] => []
  | [c] => if c.isWhitespace then [' '] else [c]
  | c :: d :: cs =>
    if c.isWhitespace && d.isWhitespace then collapseWs (d :: cs)
    else (if c.isWhitespace then ' ' else c) :: collapseWs (d :: cs)

/-- The character cleanup of `safe_filename_component` (lines 73-75 after
the default has been resolved): replace forbidden filename characters by
underscore, collapse whitespace runs to a single space, strip. -/
def filenameCleanup (s : String) : String :=
  String.mk (pyStrip (collapseWs (s.toList.map (fun c => if isFilenameBad c then '_' else c))))

/-- `safe_filename_component` (lines 71-75). Python's `or default` re-applies
the default when the sanitized value is falsy (empty). -/
def safe_filename_component (value : Option String) (default : String) : String :=
  let s0 := (sanitize_any value (some default)).getD default
  let s1 := if s0 = "" then default else s0
  filenameCleanup s1

/-- `truncate_component` (lines 78-82): `None` becomes `""`; otherwise
hard-truncate to `maxLen` characters. -/
def truncate_component (value : Option String) (maxLen : Nat) : String :=
  match value with
  | none => ""
  | some v => if v.length ≤ maxLen then v else v.take maxLen

/-! ## Header normalization and pattern matching (lines 85-124)

The Python code matches normalized header cells with `re.search` against a
fixed set of patterns built from literal characters, the word-boundary
assertion `\b`, and `\s*` gaps between non-whitespace literals.  We model
exactly that pattern language. -/

/-- Lowercasing as used on header cells.  Python `str.lower()` restricted to
the ASCII letters plus the accented Latin letters covered by the
decomposition table below. -/
def pyLower (c : Char) : Char :=
  if c = 'Ä' then 'ä' else if c = 'Ö' then 'ö' else if c = 'Ü' then 'ü'
  else if c = 'À' then 'à' else if c = 'Á' then 'á' else if c = 'Â' then 'â'
  else if c = 'È' then 'è' else if c = 'É' then 'é' else if c = 'Ê' then 'ê'
  else if c = 'Ç' then 'ç' else if c = 'Ñ' then 'ñ' else c.toLower

/-- Modelled from the spec: `unicodedata.normalize("NFKD", s)` character
decomposition (line 90), restricted to the accented Latin letters relevant to
header matching.  Each accented letter decomposes into its base letter
followed by a combining mark. -/
def nfkdChar (c : Char) : List Char :=
  if c = 'ä' then ['a', '̈'] else if c = 'ö' then ['o', '̈']
  else if c = 'ü' then ['u', '̈'] else if c = 'à' then ['a', '̀']
  else if c = 'á' then ['a', '́'] else if c = 'â' then ['a', '̂']
  else if c = 'è' then ['e', '̀'] else if c = 'é' then ['e', '́']
  else if c = 'ê' then ['e', '̂'] else if c = 'ç' then ['c', '̧']
  else if c = 'ñ' then ['n', '̃'] else [c]

/-- Modelled from the spec: `unicodedata.combining(ch) != 0` (line 91) for
the combining marks produced by `nfkdChar`. -/
def isCombiningMark (c : Char) : Bool :=
  c = '̀' || c = '́' || c = '̂' || c = '̃' ||
  c = '̈' || c = '̧'

/-- `normalize_for_match` (lines 85-92): `None` becomes `""`; otherwise strip,
lowercase, NFKD-decompose, and drop combining marks. -/
def normalize_for_match (s : Option String) : String :=
  match s with
  | none => ""
  | some v =>
    String.mk ((((pyStrip v.toList).map pyLower).flatMap nfkdChar).filter
      (fun c => !isCombiningMark c))

/-- A token of the regular-expression subset used by `build_column_map`:
a literal character, the word-boundary assertion `\b`, or a `\s*` gap. -/
inductive RTok
  | ch (c : Char)
  | wb
  | ws
deriving DecidableEq

/-- Python regex word characters (`\w`), for `\b`. -/
def isWordChar (c : Char) : Bool := c.isAlphanum || c = '_'

/-- Does a word boundary sit between the previous character (none at the
start of the string) and the upcoming characters? -/
def wordBoundary (prev : Option Char) (cs : List Char) : Bool :=
  (match prev with | none => false | some p => isWordChar p) !=
  (match cs with | [] => false | c :: _ => isWordChar c)

/-- Modelled from the spec: matching one of the code's patterns at a fixed
position.  `\s*` is matched greedily, which is equivalent to backtracking
because in every pattern of the program a `\s*` gap is followed by a
non-whitespace literal. -/
def matchToks : List RTok → Option Char → List Char → Bool
  | [], _, _ => true
  | .wb :: ts, prev, cs => wordBoundary prev cs && matchToks ts prev cs
  | .ch c :: ts, _, cs =>
    match cs with
    | [] => false
    | d :: rest => c == d && matchToks ts (some d) rest
  | .ws :: ts, prev, cs =>
    let run := cs.takeWhile Char.isWhitespace
    matchToks ts (match run.getLast? with | none => prev | some d => some d)
      (cs.dropWhile Char.isWhitespace)

/-- Modelled from the spec: `re.search` — try the pattern at every start
position. -/
def searchToks (p : List RTok) : Option Char → List Char → Bool
  | prev, [] => matchToks p prev []
  | prev, c :: rest => matchToks p prev (c :: rest) || searchToks p (some c) rest

/-- `re.search(p, s)` as a Bool. -/
def regexSearch (p : List RTok) (s : String) : Bool :=
  searchToks p none s.toList

/-- A pattern built from literal characters only. -/
def litP (s : String) : List RTok := s.toList.map RTok.ch

/-- The pattern lists of `build_column_map` (lines 118-123), one entry per
logical field, in the code's order. -/
def companyPats : List (List RTok) :=
  [[.wb] ++ litP "company" ++ [.wb], [.wb] ++ litP "firma" ++ [.wb],
   [.wb] ++ litP "unternehmen" ++ [.wb]]

def articlePats : List (List RTok) :=
  [litP "artikel", litP "item" ++ [.ws] ++ litP "no",
   litP "article" ++ [.ws] ++ litP "no", [.wb] ++ litP "sku" ++ [.wb],
   [.wb] ++ litP "item" ++ [.wb], [.wb] ++ litP "article" ++ [.wb]]

def quantityPats : List (List RTok) :=
  [litP "stuckzahl", litP "stueckzahl", litP "quantity", litP "qty", litP "menge"]

def batchPats : List (List RTok) := [litP "chargen", litP "batch"]

def orderPats : List (List RTok) := [litP "bestell", litP "order"]

def cartonPats : List (List RTok) := [litP "karton", litP "carton"]

/-- The logical fields of the column map. -/
inductive LField
  | company | article | quantity | batch | order | carton
deriving DecidableEq

/-- The pattern list of a logical field. -/
def fieldPats : LField → List (List RTok)
  | .company => companyPats
  | .article => articlePats
  | .quantity => quantityPats
  | .batch => batchPats
  | .order => orderPats
  | .carton => cartonPats

/-- Does a normalized header cell match any pattern of the field
(inner loop of `find_idx`, lines 110-115)? -/
def cellMatches (f : LField) (h : String) : Bool :=
  (fieldPats f).any (fun p => regexSearch p h)

/-- `ColumnMap`: optional column index per logical field. -/
structure ColMap where
  company : Option Nat
  article : Option Nat
  quantity : Option Nat
  batch : Option Nat
  order : Option Nat
  carton : Option Nat
deriving DecidableEq

/-- The `enumerate` loop of `find_idx` (lines 111-115), carrying the running
cell index. -/
def find_idx_from (f : LField) (i : Nat) : List String → Option Nat
  | [] => none
  | h :: rest => if cellMatches f h then some i else find_idx_from f (i + 1) rest

/-- `find_idx` (lines 110-115): index of the first normalized cell matching
any pattern of the field. -/
def find_idx (f : LField) (normalized : List String) : Option Nat :=
  find_idx_from f 0 normalized

/-- `build_column_map` (lines 95-124). -/
def build_column_map (headerRow : List String) : ColMap :=
  let normalized := headerRow.map (fun h => normalize_for_match (some h))
  { company := find_idx .company normalized
    article := find_idx .article normalized
    quantity := find_idx .quantity normalized
    batch := find_idx .batch normalized
    order := find_idx .order normalized
    carton := find_idx .carton normalized }

/-- Field projection of a `ColMap`. -/
def colOf (cm : ColMap) : LField → Option Nat
  | .company => cm.company
  | .article => cm.article
  | .quantity => cm.quantity
  | .batch => cm.batch
  | .order => cm.order
  | .carton => cm.carton

/-- `get_cell` (lines 127-132): out-of-range or absent index gives the
default. -/
def get_cell (row : List String) (idx : Option Nat) (default : String) : String :=
  match idx with
  | none => default
  | some i => row.getD i default

/-! ## Shrink-to-fit font sizing (lines 203-209 and 232-238)

Both while-loops decrement the font size by one while the size is above a
floor and the measured width exceeds the available width.  `widthAt` is the
abstract text-measurement backend `pdfmetrics.stringWidth` applied to the
fixed string and font of the loop. -/

/-- The shrink-to-fit loop.  Structural recursion on the size mirrors the
one-unit decrement of the Python loop. -/
def shrinkToFit (widthAt : Nat → ℚ) (avail : ℚ) (floor : Nat) : Nat → Nat
  | 0 => 0
  | s + 1 =>
    if floor < s + 1 ∧ avail < widthAt (s + 1) then shrinkToFit widthAt avail floor s
    else s + 1

/-- The number of decrement iterations the loop performs. -/
def shrinkSteps (widthAt : Nat → ℚ) (avail : ℚ) (floor : Nat) : Nat → Nat
  | 0 => 0
  | s + 1 =>
    if floor < s + 1 ∧ avail < widthAt (s + 1) then shrinkSteps widthAt avail floor s + 1
    else 0

/-! ## Barcode renderer model and fitter (lines 260-315)

The reportlab Code128 renderer is an external collaborator.  Modelled from
the spec: `render(payload, moduleWidth, barHeight)` returns a bounding box
whose width scales linearly in the module width (a fixed number of modules
per payload) and whose height is the bar height. -/

/-- Modelled from the spec: the number of Code128 modules of a rendered
payload — one symbol of 11 modules per payload character, start and checksum
symbols, a 13-module stop pattern and two 10-module quiet zones.  Only
linearity in the module width and integrality matter for the proofs. -/
def code128Modules (payload : String) : Nat :=
  11 * (payload.length + 2) + 13 + 20

/-- Modelled from the spec: rendered Code128 bounding width. -/
def code128Width (payload : String) (barWidth : ℚ) : ℚ :=
  barWidth * (code128Modules payload : ℚ)

/-- Modelled from the spec: rendered Code128 bounding height. -/
def code128Height (_payload : String) (barHeight : ℚ) : ℚ := barHeight

/-- The barcode fitting computation of `generate_pdf` (lines 277-305),
parameterized by the measured natural size `(naturalW, naturalH)` of the
baseline render and the target box.  Returns
`(final_width, final_height, bar_width_final)`. -/
def barcodeFit (initialBW naturalW naturalH targetW targetH : ℚ) : ℚ × ℚ × ℚ :=
  let size_diff_percent := naturalW / 100 * targetW
  let fw0 := size_diff_percent
  let fh0 := naturalH / 100 * size_diff_percent
  let p1 := if targetW < fw0 then
      (fw0 * (targetW / fw0), fh0 * (targetW / fw0)) else (fw0, fh0)
  let p2 := if targetH < p1.2 then
      (p1.1 * (targetH / p1.2), p1.2 * (targetH / p1.2)) else p1
  let bw := initialBW * (p2.1 / naturalW)
  (p2.1, p2.2, if bw < 1/5 then 1/5 else bw)

/-! ## The label layout trace (`generate_pdf`, lines 137-346) -/

/-- One rendering-backend call, in emission order. -/
inductive DrawOp
  | setLineWidth (w : ℚ)
  | rect (x y w h : ℚ)
  | setFont (font : String) (size : ℚ)
  | text (x y : ℚ) (s : String)
  | ctext (x y : ℚ) (s : String)
  | barcode (payload : String) (barHeight barWidth x y : ℚ)
deriving DecidableEq

/-- Fallback font names (lines 29-30; the optional custom-font registration
is filesystem I/O outside the embedding). -/
def FONT_REGULAR : String := "Helvetica"

def FONT_BOLD : String := "Helvetica-Bold"

/-- A4 page width in points, `210mm * 72/25.4` (reportlab `A4`). -/
def pageW : ℚ := 75600 / 127

/-- A4 page height in points, `297mm * 72/25.4`. -/
def pageH : ℚ := 106920 / 127

/-- Left/right page margin (line 170). -/
def margin_x : ℚ := 36

/-- Label frame geometry (lines 171-174); constants because the page size is
fixed. -/
def label_w : ℚ := pageW - 2 * margin_x

def label_h : ℚ := pageH - 140

def label_x : ℚ := margin_x

def label_y : ℚ := (pageH - label_h) / 2

/-- Column split of the two-column rows (lines 194-195). -/
def col1_w : ℚ := label_w * (45 / 100)

def col2_w : ℚ := label_w - col1_w

/-- `draw_row` (lines 217-241): the ops emitted for one two-column row.
`sw text font size` is `pdfmetrics.stringWidth(text, font, size)`. -/
def drawRowOps (sw : String → String → Nat → ℚ) (yTop height : ℚ)
    (mainLabel subLabel : String) (value : Option String) (shrinkable : Bool) :
    List DrawOp :=
  [DrawOp.rect label_x (yTop - height) col1_w height,
   DrawOp.rect (label_x + col1_w) (yTop - height) col2_w height,
   DrawOp.setFont FONT_BOLD 36,
   DrawOp.text (label_x + 12) (yTop - 30) mainLabel,
   DrawOp.setFont FONT_BOLD 18,
   DrawOp.text (label_x + 12) (yTop - 54) subLabel] ++
  (match value with
   | none => []
   | some v =>
     let fsv := if shrinkable then
         shrinkToFit (fun n => sw v FONT_BOLD n) (col2_w - 20) 8 36 else 36
     [DrawOp.setFont FONT_BOLD (fsv : ℚ),
      DrawOp.text (label_x + col1_w + 10) (yTop - height / 2 - (fsv : ℚ) * (35 / 100)) v])

/-- The result of `generate_pdf`: the output filename and the rendering
trace. -/
structure GenPdf where
  pdfFile : String
  ops : List DrawOp
deriving DecidableEq

/-- `generate_pdf` (lines 137-346) as a pure function from the raw field
values (and the abstract text-measurement backend `sw`) to its rendering
trace. -/
def generate_pdf (sw : String → String → Nat → ℚ)
    (company_raw artikel_raw qty_raw batch_raw order_raw : Option String)
    (carton_no : String) : GenPdf :=
  let company := (sanitize_any company_raw (some "COMPANY_NAME")).getD "COMPANY_NAME"
  let artikel_display := (sanitize_any artikel_raw (some "")).getD ""
  let order_display := (sanitize_any order_raw (some "")).getD ""
  let qty_digits := (sanitize_numeric_keep_zeros qty_raw (some "0")).getD "0"
  let quantity_display := strip_leading_zeros_keep_zero (some qty_digits)
  let batch_display := (sanitize_any batch_raw (some "1")).getD "1"
  let barcode_data :=
    artikel_display ++ "|" ++ qty_digits ++ "|" ++ batch_display ++ "|" ++ carton_no
  let company_safe := truncate_component (some (safe_filename_component (some company) "Company")) 40
  let order_safe := truncate_component (some (safe_filename_component (some order_display) "NoOrderNo")) 40
  let batch_safe := truncate_component (some (safe_filename_component (some batch_display) "Batch")) 20
  let pdf_file := company_safe ++ " - Order " ++ order_safe ++ ", Batch " ++
    batch_safe ++ ", Box " ++ carton_no ++ ".pdf"
  -- header row (lines 200-212)
  let row_top0 := label_y + label_h
  let header_h : ℚ := 90
  let font_size := shrinkToFit (fun n => sw company FONT_BOLD n) (label_w - 24) 12 42
  let headerOps :=
    [DrawOp.setLineWidth 3,
     DrawOp.rect label_x label_y label_w label_h,
     DrawOp.setLineWidth (3 / 2),
     DrawOp.rect label_x (row_top0 - header_h) label_w header_h,
     DrawOp.setFont FONT_BOLD (font_size : ℚ),
     DrawOp.ctext (label_x + label_w / 2)
       (row_top0 - header_h / 2 - (font_size : ℚ) * (33 / 100)) company]
  let row_top1 := row_top0 - header_h
  let articleOps := drawRowOps sw row_top1 70 "Article No." "(SKU)" (some artikel_display) true
  let row_top2 := row_top1 - 70
  let quantityOps := drawRowOps sw row_top2 70 "Quantity" "(Per box)" (some quantity_display) false
  let row_top3 := row_top2 - 70
  -- barcode row (lines 260-319)
  let rh : ℚ := 150
  let text_size : ℚ := 12
  let text_pad_bottom : ℚ := 16
  let text_area_h := text_size + 6
  let top_pad : ℚ := 16
  let bottom_pad := text_area_h + text_pad_bottom
  let sht0 := rh - top_pad - bottom_pad
  let size_height_target := if sht0 < 30 then (30 : ℚ) else sht0
  let size_width_target := label_w - 60
  let initial_bar_width : ℚ := (12 / 10) / 100 * 100
  let initial_bar_height : ℚ := 40 / 100 * 100
  let size_width_init := code128Width barcode_data initial_bar_width
  let size_height_init := code128Height barcode_data initial_bar_height
  let fit := barcodeFit initial_bar_width size_width_init size_height_init
    size_width_target size_height_target
  let final_height := fit.2.1
  let bar_width_final := fit.2.2
  let barcode_w := code128Width barcode_data bar_width_final
  let barcode_h := code128Height barcode_data final_height
  let barcode_x := label_x + (label_w - barcode_w) / 2
  let barcode_y := (row_top3 - rh) + top_pad + (size_height_target - barcode_h) / 2
  let barcodeOps :=
    [DrawOp.rect label_x (row_top3 - rh) label_w rh,
     DrawOp.barcode barcode_data final_height bar_width_final barcode_x (barcode_y + 15),
     DrawOp.setFont FONT_REGULAR text_size,
     DrawOp.ctext (label_x + label_w / 2) ((row_top3 - rh) + text_pad_bottom) barcode_data]
  let row_top4 := row_top3 - rh
  let orderIndexOps := drawRowOps sw row_top4 70 "Order Index" "(Nth item in your order)"
    (some batch_display) true
  let row_top5 := row_top4 - 70
  let orderNoOps := drawRowOps sw row_top5 70 "Order No." "(Your order number)"
    (some order_display) true
  let row_top6 := row_top5 - 70
  let boxOps := drawRowOps sw row_top6 70 "Box No." "(Nth box for this Article No.)"
    (some carton_no) false
  { pdfFile := pdf_file
    ops := headerOps ++ articleOps ++ quantityOps ++ barcodeOps ++
      orderIndexOps ++ orderNoOps ++ boxOps }

/-- The payload strings of the barcode draw calls of a trace. -/
def barcodePayloads (ops : List DrawOp) : List String :=
  ops.filterMap (fun op => match op with
    | DrawOp.barcode s _ _ _ _ => some s
    | _ => none)

/-- The strings drawn with `drawCentredString`, in order. -/
def centredTexts (ops : List DrawOp) : List String :=
  ops.filterMap (fun op => match op with
    | DrawOp.ctext _ _ s => some s
    | _ => none)

/-- The strings drawn with `drawString`, in order. -/
def drawnTexts (ops : List DrawOp) : List String :=
  ops.filterMap (fun op => match op with
    | DrawOp.text _ _ s => some s
    | _ => none)

/-! ## CSV driver (`run_csv`, lines 351-399) -/

/-- Is a CSV row skipped (line 372)?  Empty rows and rows whose cells are all
whitespace-only are skipped. -/
def isBlankRow (row : List String) : Bool :=
  row.all (fun cell => String.mk (pyStrip cell.toList) = "")

/-- Base-10 value of a list of digit characters, most significant first:
Python `int(s)` on a string of decimal digits. -/
def digitsToNat (l : List Char) : Nat :=
  l.foldl (fun acc c => 10 * acc + (c.toNat - '0'.toNat)) 0

/-- Python `int(s)` guarded by `try/except ValueError` with fallback 1
(lines 390-393): a non-empty all-digit string parses to its base-10 value,
anything else falls back. -/
def intOr1 (s : String) : Nat :=
  if s ≠ "" ∧ s.toList.all Char.isDigit then digitsToNat s.toList else 1

/-- The arguments of one `generate_pdf` call issued by `run_csv`
(line 399). -/
structure PdfArgs where
  company : String
  artikel : String
  qty : String
  batch : String
  order : String
  carton : String
deriving DecidableEq

/-- Processing of one data row (lines 381-399): extract the cells through the
column map, compute the carton total, and emit one call per carton index
`1..k_total`. -/
def processDataRow (cm : ColMap) (row : List String) : List PdfArgs :=
  let company_raw := get_cell row cm.company "COMPANY_NAME"
  let artikel_raw := get_cell row cm.article ""
  let qty_raw := get_cell row cm.quantity "0"
  let batch_raw := get_cell row cm.batch "1"
  let order_raw := get_cell row cm.order ""
  let karton_raw := get_cell row cm.carton "1"
  let karton_digits := (sanitize_numeric_keep_zeros (some karton_raw) (some "1")).getD "1"
  let k0 := if karton_digits = "" then 1 else intOr1 karton_digits
  let k_total := if k0 < 1 then 1 else k0
  (List.range' 1 k_total).map (fun k =>
    { company := company_raw, artikel := artikel_raw, qty := qty_raw
      batch := batch_raw, order := order_raw, carton := toString k })

/-- The row loop of `run_csv` (lines 370-399): the state is the column map
once the header has been seen. -/
def run_csv_aux (st : Option ColMap) : List (List String) → List PdfArgs
  | [] => []
  | row :: rest =>
    if isBlankRow row then run_csv_aux st rest
    else
      match st with
      | none => run_csv_aux (some (build_column_map row)) rest
      | some cm => processDataRow cm row ++ run_csv_aux (some cm) rest

/-- `run_csv` on parsed rows: the sequence of `generate_pdf` invocations, in
order. -/
def run_csv (rows : List (List String)) : List PdfArgs :=
  run_csv_aux none rows

/-! ## General lemmas -/

lemma mk_eq_empty_iff (l : List Char) : String.mk l = "" ↔ l = [] := by
  constructor
  · intro h
    simpa using congrArg String.data h
  · rintro rfl
    rfl

lemma dropWhile_head_false {α : Type} {p : α → Bool} {l ds : List α} {d : α}
    (h : l.dropWhile p = d :: ds) : p d = false := by
  induction l with
  | nil => simp at h
  | cons a as ih =>
    rw [List.dropWhile_cons] at h
    by_cases ha : p a
    · exact ih (by simpa [ha] using h)
    · rw [if_neg (by simpa using ha)] at h
      cases h
      simpa using ha

lemma dropWhile_of_all_false {α : Type} {p : α → Bool} {l : List α}
    (h : ∀ c ∈ l, p c = false) : l.dropWhile p = l := by
  cases l with
  | nil => rfl
  | cons a as => rw [List.dropWhile_cons, if_neg (by simp [h a (by simp)])]

lemma pyStrip_of_no_ws (l : List Char) (h : ∀ c ∈ l, c.isWhitespace = false) :
    pyStrip l = l := by
  unfold pyStrip
  rw [dropWhile_of_all_false h, dropWhile_of_all_false (fun c hc => h c (by
    simpa using hc)), List.reverse_reverse]

lemma collapseWs_of_no_ws (l : List Char) (h : ∀ c ∈ l, c.isWhitespace = false) :
    collapseWs l = l := by
  induction l with
  | nil => rfl
  | cons a as ih =>
    cases as with
    | nil => simp [collapseWs, h a (by simp)]
    | cons b bs =>
      have ha := h a (by simp)
      have hb := h b (by simp)
      have hrest : collapseWs (b :: bs) = b :: bs :=
        ih (fun c hc => h c (by simp at hc ⊢; tauto))
      simp [collapseWs, ha, hb, hrest]

lemma filenameCleanup_of_clean (d : String)
    (h : ∀ c ∈ d.toList, isFilenameBad c = false ∧ c.isWhitespace = false) :
    filenameCleanup d = d := by
  unfold filenameCleanup
  have hmap : d.toList.map (fun c => if isFilenameBad c then '_' else c) = d.toList := by
    rw [show d.toList.map (fun c => if isFilenameBad c then '_' else c) =
      d.toList.map id from List.map_congr_left (fun c hc => by simp [(h c hc).1])]
    exact List.map_id _
  rw [hmap, collapseWs_of_no_ws _ (fun c hc => (h c hc).2),
    pyStrip_of_no_ws _ (fun c hc => (h c hc).2)]
  rfl

/-- The digit characters that the numeric sanitizer extracts from an optional
raw value (`None` contributes none). -/
def digitsOf : Option String → List Char
  | none => []
  | some v => digitChars v

/-- C6: `strip_leading_zeros_keep_zero` never returns the empty string; it
returns "0" exactly when the input has no digits or only zero digits, and
otherwise returns the input's digit string with its leading zeros removed. -/
theorem strip_leading_zeros_keep_zero_spec (s : Option String) :
    strip_leading_zeros_keep_zero s ≠ "" ∧
    (strip_leading_zeros_keep_zero s = "0" ↔ ∀ c ∈ digitsOf s, c = '0') ∧
    ((∃ c ∈ digitsOf s, c ≠ '0') →
      strip_leading_zeros_keep_zero s =
        String.mk ((digitsOf s).dropWhile (fun c => c = '0'))) := by
  have main : ∀ v : Option String,
      (sanitize_numeric_keep_zeros v (some "0")).getD "0" =
        if String.mk (digitsOf v) = "" then "0" else String.mk (digitsOf v) := by
    intro v
    cases v with
    | none => rfl
    | some v =>
      simp only [sanitize_numeric_keep_zeros, digitsOf]
      split <;> simp
  by_cases hd : digitsOf s = []
  · rw [show strip_leading_zeros_keep_zero s =
        ((if String.mk (((sanitize_numeric_keep_zeros s (some "0")).getD "0").toList.dropWhile
          (fun c => c = '0')) = "" then "0" else
          String.mk (((sanitize_numeric_keep_zeros s (some "0")).getD "0").toList.dropWhile
          (fun c => c = '0')))) from rfl, main s, hd]
    simp
  · have hne : String.mk (digitsOf s) ≠ "" := fun h => hd ((mk_eq_empty_iff _).mp h)
    have hs1 : (sanitize_numeric_keep_zeros s (some "0")).getD "0" = String.mk (digitsOf s) := by
      rw [main s, if_neg hne]
    rw [show strip_leading_zeros_keep_zero s =
        ((if String.mk (((sanitize_numeric_keep_zeros s (some "0")).getD "0").toList.dropWhile
          (fun c => c = '0')) = "" then "0" else
          String.mk (((sanitize_numeric_keep_zeros s (some "0")).getD "0").toList.dropWhile
          (fun c => c = '0')))) from rfl, hs1]
    have htl : (String.mk (digitsOf s)).toList = digitsOf s := rfl
    rw [htl]
    by_cases hz : ∀ c ∈ digitsOf s, c = '0'
    · have hdw : (digitsOf s).dropWhile (fun c => c = '0') = [] := by
        rw [List.dropWhile_eq_nil_iff]
        intro x hx
        simp [hz x hx]
      rw [hdw, if_pos rfl]
      refine ⟨by simp, ⟨fun _ => hz, fun _ => rfl⟩, ?_⟩
      rintro ⟨c, hc, hcne⟩
      exact absurd (hz c hc) hcne
    · have hdw : (digitsOf s).dropWhile (fun c => c = '0') ≠ [] := by
        intro h
        rw [List.dropWhile_eq_nil_iff] at h
        exact hz (fun c hc => by simpa using h c hc)
      have hne2 : String.mk ((digitsOf s).dropWhile (fun c => c = '0')) ≠ "" :=
        fun h => hdw ((mk_eq_empty_iff _).mp h)
      rw [if_neg hne2]
      refine ⟨hne2, ?_, fun _ => rfl⟩
      constructor
      · intro h0
        obtain ⟨d, ds, hcons⟩ := List.exists_cons_of_ne_nil hdw
        have hdfalse := dropWhile_head_false hcons
        have : (digitsOf s).dropWhile (fun c => c = '0') = ['0'] := by
          simpa using congrArg String.data h0
        rw [this] at hcons
        cases hcons
        simp at hdfalse
      · intro hz2
        exact absurd hz2 hz

/-- C6 witness: a concrete input with a nonzero digit, via the main
theorem. -/
theorem strip_leading_zeros_keep_zero_spec_witness :
    strip_leading_zeros_keep_zero (some "045") =
      String.mk ((digitsOf (some "045")).dropWhile (fun c => c = '0')) :=
  (strip_leading_zeros_keep_zero_spec (some "045")).2.2 (by decide)

/-- C9: every sanitizer is a total function of its (optional) input — in
particular `None` input takes the default path: the numeric and generic
sanitizers return the default unchanged, `strip_leading_zeros_keep_zero`
returns "0", `truncate_component` returns "", and `safe_filename_component`
applies its character cleanup to the default (which is the identity on a
default containing no forbidden or whitespace character).  With a present
(`some`) default, the numeric and generic sanitizers always return a present
string. -/
theorem sanitizers_total :
    (∀ d : Option String, sanitize_numeric_keep_zeros none d = d) ∧
    (∀ d : Option String, sanitize_any none d = d) ∧
    strip_leading_zeros_keep_zero none = "0" ∧
    (∀ n : Nat, truncate_component none n = "") ∧
    (∀ d : String, safe_filename_component none d = filenameCleanup d) ∧
    (∀ d : String, (∀ c ∈ d.toList, isFilenameBad c = false ∧ c.isWhitespace = false) →
      safe_filename_component none d = d) ∧
    (∀ (v : Option String) (d : String), (sanitize_numeric_keep_zeros v (some d)).isSome) ∧
    (∀ (v : Option String) (d : String), (sanitize_any v (some d)).isSome) := by
  have hsafe : ∀ d : String, safe_filename_component none d = filenameCleanup d := by
    intro d
    simp only [safe_filename_component, sanitize_any, Option.getD_some]
    by_cases hd : d = ""
    · rw [if_pos hd, hd]
    · rw [if_neg hd]
  refine ⟨fun d => rfl, fun d => rfl, rfl, fun n => rfl, hsafe, ?_, ?_, ?_⟩
  · intro d h
    rw [hsafe d]
    exact filenameCleanup_of_clean d h
  · intro v d
    cases v with
    | none => rfl
    | some v =>
      simp only [sanitize_numeric_keep_zeros]
      split <;> rfl
  · intro v d
    cases v with
    | none => rfl
    | some v =>
      simp only [sanitize_any]
      split <;> rfl

/-- C9 witness: the `None` path of `safe_filename_component` at a clean
concrete default. -/
theorem sanitizers_total_witness :
    safe_filename_component none "Company" = "Company" :=
  sanitizers_total.2.2.2.2.2.1 "Company" (by decide)

/-! ## Shrink-to-fit lemmas -/

lemma shrinkToFit_le (widthAt : Nat → ℚ) (avail : ℚ) (floor : Nat) :
    ∀ size, shrinkToFit widthAt avail floor size ≤ size := by
  intro size
  induction size with
  | zero => simp [shrinkToFit]
  | succ s ih =>
    rw [shrinkToFit]
    split
    · exact le_trans ih (Nat.le_succ s)
    · exact le_refl _

lemma le_shrinkToFit (widthAt : Nat → ℚ) (avail : ℚ) (floor : Nat) :
    ∀ size, floor ≤ size → floor ≤ shrinkToFit widthAt avail floor size := by
  intro size
  induction size with
  | zero => intro h; simpa [shrinkToFit] using h
  | succ s ih =>
    intro h
    rw [shrinkToFit]
    split
    · rename_i hc
      exact ih (Nat.le_of_lt_succ hc.1)
    · exact h

lemma shrinkToFit_exit (widthAt : Nat → ℚ) (avail : ℚ) (floor : Nat) :
    ∀ size, floor ≤ size →
      widthAt (shrinkToFit widthAt avail floor size) ≤ avail ∨
      shrinkToFit widthAt avail floor size = floor := by
  intro size
  induction size with
  | zero => intro h; right; simpa [shrinkToFit] using Nat.le_antisymm (Nat.zero_le _) h
  | succ s ih =>
    intro h
    rw [shrinkToFit]
    split
    · rename_i hc
      exact ih (Nat.le_of_lt_succ hc.1)
    · rename_i hc
      rcases Decidable.not_and_iff_or_not.mp hc with h1 | h2
      · right
        exact Nat.le_antisymm (Nat.le_of_not_lt h1) h
      · left
        exact le_of_not_lt h2

lemma shrinkSteps_eq (widthAt : Nat → ℚ) (avail : ℚ) (floor : Nat) :
    ∀ size, shrinkSteps widthAt avail floor size =
      size - shrinkToFit widthAt avail floor size := by
  intro size
  induction size with
  | zero => simp [shrinkSteps, shrinkToFit]
  | succ s ih =>
    rw [shrinkSteps, shrinkToFit]
    split
    · rw [ih]
      have := shrinkToFit_le widthAt avail floor s
      omega
    · omega

/-- C5: the shrink-to-fit decrement loop (header: start 42, floor 12; value
cells: start 36, floor 8) never goes below the floor nor above the start, at
termination either the measured width fits the available width or the size is
exactly the floor (oversized text at the floor is accepted, no error path),
and the number of decrement iterations is the distance from start to final
size, hence at most `size - floor`. -/
theorem shrinkToFit_spec (widthAt : Nat → ℚ) (avail : ℚ) (floor size : Nat)
    (h : floor ≤ size) :
    shrinkToFit widthAt avail floor size ≤ size ∧
    floor ≤ shrinkToFit widthAt avail floor size ∧
    (widthAt (shrinkToFit widthAt avail floor size) ≤ avail ∨
      shrinkToFit widthAt avail floor size = floor) ∧
    shrinkSteps widthAt avail floor size = size - shrinkToFit widthAt avail floor size ∧
    shrinkSteps widthAt avail floor size ≤ size - floor := by
  refine ⟨shrinkToFit_le widthAt avail floor size, le_shrinkToFit widthAt avail floor size h,
    shrinkToFit_exit widthAt avail floor size h, shrinkSteps_eq widthAt avail floor size, ?_⟩
  rw [shrinkSteps_eq widthAt avail floor size]
  have := le_shrinkToFit widthAt avail floor size h
  omega

/-- C5 witness: the value-cell instance (start 36, floor 8) at a concrete
width function. -/
theorem shrinkToFit_spec_witness :
    shrinkToFit (fun n => (n : ℚ)) 20 8 36 ≤ 36 ∧
    8 ≤ shrinkToFit (fun n => (n : ℚ)) 20 8 36 ∧
    ((fun n => (n : ℚ)) (shrinkToFit (fun n => (n : ℚ)) 20 8 36) ≤ 20 ∨
      shrinkToFit (fun n => (n : ℚ)) 20 8 36 = 8) ∧
    shrinkSteps (fun n => (n : ℚ)) 20 8 36 =
      36 - shrinkToFit (fun n => (n : ℚ)) 20 8 36 ∧
    shrinkSteps (fun n => (n : ℚ)) 20 8 36 ≤ 36 - 8 :=
  shrinkToFit_spec (fun n => (n : ℚ)) 20 8 36 (by decide)

/-! ## Barcode fitter lemmas -/

lemma code128Modules_pos (p : String) : 0 < code128Modules p := by
  unfold code128Modules
  omega

lemma code128Modules_cast_pos (p : String) : (0 : ℚ) < (code128Modules p : ℚ) := by
  exact_mod_cast code128Modules_pos p

lemma code128Width_baseline_pos (p : String) : 0 < code128Width p (6/5) :=
  mul_pos (by norm_num) (code128Modules_cast_pos p)

/-- The baseline natural width `1.2 × modules` is never exactly 100, because
`6 × modules = 500` has no integer solution. -/
lemma code128Width_baseline_ne_100 (p : String) : code128Width p (6/5) ≠ 100 := by
  unfold code128Width
  intro h
  have h6 : (6 : ℚ) * (code128Modules p : ℚ) = 500 := by linarith
  have h6n : 6 * code128Modules p = 500 := by exact_mod_cast h6
  omega

/-- The final module width of the fitter is the linearly converted module
width floored at 1/5 (lines 303-305). -/
lemma barcodeFit_bw (ibw nW nH Wt Ht : ℚ) :
    (barcodeFit ibw nW nH Wt Ht).2.2 =
      if ibw * ((barcodeFit ibw nW nH Wt Ht).1 / nW) < 1/5 then (1/5 : ℚ)
      else ibw * ((barcodeFit ibw nW nH Wt Ht).1 / nW) := rfl

/-- Clamping structure of the fitter: the output pair is the candidate pair
scaled by one factor `s ∈ (0, 1]`, stays inside the target box, and stays
positive. -/
lemma barcodeFit_scale (ibw nW nH Wt Ht : ℚ) (hnW : 0 < nW) (hnH : 0 < nH)
    (hW : 0 < Wt) (hH : 0 < Ht) :
    ∃ s : ℚ, 0 < s ∧ s ≤ 1 ∧
      (barcodeFit ibw nW nH Wt Ht).1 = s * (nW / 100 * Wt) ∧
      (barcodeFit ibw nW nH Wt Ht).2.1 = s * (nH / 100 * (nW / 100 * Wt)) ∧
      (barcodeFit ibw nW nH Wt Ht).1 ≤ Wt ∧
      (barcodeFit ibw nW nH Wt Ht).2.1 ≤ Ht ∧
      0 < (barcodeFit ibw nW nH Wt Ht).1 ∧
      0 < (barcodeFit ibw nW nH Wt Ht).2.1 := by
  simp only [barcodeFit]
  set A := nW / 100 * Wt with hAdef
  set B := nH / 100 * A with hBdef
  have hA : 0 < A := by rw [hAdef]; positivity
  have hB : 0 < B := by rw [hBdef, hAdef]; positivity
  split_ifs with h1 h2 h2
  · -- width clamp applied, then height clamp applied
    dsimp only at h2 ⊢
    have hWA : Wt / A < 1 := (div_lt_one hA).mpr h1
    have h2A : Ht * A < B * Wt := by
      have hx := mul_lt_mul_of_pos_right h2 hA
      have hy : B * (Wt / A) * A = B * Wt := by field_simp
      rw [hy] at hx
      exact hx
    have hHB : Ht < B := by
      calc Ht < B * (Wt / A) := h2
        _ ≤ B * 1 := by nlinarith
        _ = B := by ring
    have e1 : A * (Wt / A) * (Ht / (B * (Wt / A))) = Ht / B * A := by
      field_simp
      ring
    have e2 : B * (Wt / A) * (Ht / (B * (Wt / A))) = Ht / B * B := by
      field_simp
      ring
    rw [e1, e2]
    refine ⟨Ht / B, by positivity, (div_le_one hB).mpr hHB.le, rfl, rfl, ?_, ?_,
      by positivity, by positivity⟩
    · rw [div_mul_eq_mul_div, div_le_iff₀ hB]
      nlinarith
    · rw [div_mul_cancel₀ _ (ne_of_gt hB)]
  · -- width clamp applied only
    dsimp only at h2 ⊢
    have eW : A * (Wt / A) = Wt := by field_simp
    refine ⟨Wt / A, by positivity, (div_le_one hA).mpr h1.le, by ring, by ring, ?_, ?_, ?_,
      by positivity⟩
    · rw [eW]
    · exact not_lt.mp h2
    · rw [eW]; exact hW
  · -- height clamp applied only
    dsimp only at h2 ⊢
    have hHB : Ht / B ≤ 1 := (div_le_one hB).mpr h2.le
    have eH : B * (Ht / B) = Ht := by field_simp
    refine ⟨Ht / B, by positivity, hHB, by ring, by ring, ?_, ?_, by positivity, ?_⟩
    · calc A * (Ht / B) ≤ A * 1 := by nlinarith
        _ = A := by ring
        _ ≤ Wt := not_lt.mp h1
    · rw [eH]
    · rw [eH]; exact hH
  · -- no clamp applied
    dsimp only at h2 ⊢
    exact ⟨1, one_pos, le_refl 1, by ring, by ring, not_lt.mp h1, not_lt.mp h2, hA, hB⟩

/-- C2: for every payload and positive target box, the fitter scales the
candidate `(width, height)` pair by a single multiplicative factor in `(0,1]`
(width clamp first, then height clamp, both uniform), the resulting pair
never exceeds the target box — in particular never in both dimensions
simultaneously — and whenever the converted module width does not fall below
the floor 1/5 (so the floor replacement does not occur), the re-rendered
barcode also fits the box in both dimensions. -/
theorem barcode_fitter_clamps (p : String) (targetW targetH : ℚ)
    (hW : 0 < targetW) (hH : 0 < targetH) :
    (∃ s : ℚ, 0 < s ∧ s ≤ 1 ∧
      (barcodeFit (6/5) (code128Width p (6/5)) (code128Height p 40) targetW targetH).1 =
        s * (code128Width p (6/5) / 100 * targetW) ∧
      (barcodeFit (6/5) (code128Width p (6/5)) (code128Height p 40) targetW targetH).2.1 =
        s * (code128Height p 40 / 100 * (code128Width p (6/5) / 100 * targetW))) ∧
    (barcodeFit (6/5) (code128Width p (6/5)) (code128Height p 40) targetW targetH).1 ≤ targetW ∧
    (barcodeFit (6/5) (code128Width p (6/5)) (code128Height p 40) targetW targetH).2.1 ≤ targetH ∧
    ¬ ((barcodeFit (6/5) (code128Width p (6/5)) (code128Height p 40) targetW targetH).1 > targetW ∧
       (barcodeFit (6/5) (code128Width p (6/5)) (code128Height p 40) targetW targetH).2.1 > targetH) ∧
    (¬ (6/5 : ℚ) * ((barcodeFit (6/5) (code128Width p (6/5)) (code128Height p 40) targetW targetH).1 /
        code128Width p (6/5)) < 1/5 →
      (barcodeFit (6/5) (code128Width p (6/5)) (code128Height p 40) targetW targetH).2.2 =
        (6/5 : ℚ) * ((barcodeFit (6/5) (code128Width p (6/5)) (code128Height p 40) targetW targetH).1 /
          code128Width p (6/5)) ∧
      code128Width p
        ((barcodeFit (6/5) (code128Width p (6/5)) (code128Height p 40) targetW targetH).2.2) ≤ targetW ∧
      code128Height p
        ((barcodeFit (6/5) (code128Width p (6/5)) (code128Height p 40) targetW targetH).2.1) ≤ targetH) := by
  have hnW : 0 < code128Width p (6/5) := code128Width_baseline_pos p
  have hnH : 0 < code128Height p 40 := by norm_num [code128Height]
  obtain ⟨s, hs0, hs1, he1, he2, hbw, hbh, hp1, hp2⟩ :=
    barcodeFit_scale (6/5) (code128Width p (6/5)) (code128Height p 40) targetW targetH
      hnW hnH hW hH
  refine ⟨⟨s, hs0, hs1, he1, he2⟩, hbw, hbh, by intro h; exact absurd h.1 (not_lt.mpr hbw), ?_⟩
  intro hnofloor
  have hbweq : (barcodeFit (6/5) (code128Width p (6/5)) (code128Height p 40) targetW targetH).2.2 =
      (6/5 : ℚ) * ((barcodeFit (6/5) (code128Width p (6/5)) (code128Height p 40) targetW targetH).1 /
        code128Width p (6/5)) := by
    rw [barcodeFit_bw, if_neg hnofloor]
  refine ⟨hbweq, ?_, hbh⟩
  rw [hbweq]
  have hMne : (code128Modules p : ℚ) ≠ 0 := ne_of_gt (code128Modules_cast_pos p)
  have hconv : code128Width p
      ((6/5 : ℚ) * ((barcodeFit (6/5) (code128Width p (6/5)) (code128Height p 40) targetW targetH).1 /
        code128Width p (6/5))) =
      (barcodeFit (6/5) (code128Width p (6/5)) (code128Height p 40) targetW targetH).1 := by
    unfold code128Width
    field_simp
    ring
  rw [hconv]
  exact hbw

/-- C2 witness: the clamp bound at a concrete payload and box. -/
theorem barcode_fitter_clamps_witness :
    (barcodeFit (6/5) (code128Width "A" (6/5)) (code128Height "A" 40) 100 50).1 ≤ 100 :=
  (barcode_fitter_clamps "A" 100 50 (by norm_num) (by norm_num)).2.1

/-- C1 (amended): the candidate final height is the natural height scaled by
`final_width / 100` — not by the factor `final_width / natural_width` that
would preserve the baseline aspect ratio.  Consequently the fitted
width/height ratio is the constant `100 / 40 = 5/2` for every payload and
positive target box, while the baseline natural ratio `naturalW / 40` equals
`5/2` only if the natural width were exactly 100, which no payload attains
(the natural width is `1.2 ×` an integer module count). -/
theorem barcode_fitter_ratio (p : String) (targetW targetH : ℚ)
    (hW : 0 < targetW) (hH : 0 < targetH) :
    0 < (barcodeFit (6/5) (code128Width p (6/5)) (code128Height p 40) targetW targetH).2.1 ∧
    (barcodeFit (6/5) (code128Width p (6/5)) (code128Height p 40) targetW targetH).2.1 =
      code128Height p 40 / 100 *
        (barcodeFit (6/5) (code128Width p (6/5)) (code128Height p 40) targetW targetH).1 ∧
    (barcodeFit (6/5) (code128Width p (6/5)) (code128Height p 40) targetW targetH).1 /
      (barcodeFit (6/5) (code128Width p (6/5)) (code128Height p 40) targetW targetH).2.1 =
      5/2 ∧
    code128Width p (6/5) / code128Height p 40 ≠ 5/2 := by
  have hnW : 0 < code128Width p (6/5) := code128Width_baseline_pos p
  have hnH : 0 < code128Height p 40 := by norm_num [code128Height]
  obtain ⟨s, hs0, hs1, he1, he2, hbw, hbh, hp1, hp2⟩ :=
    barcodeFit_scale (6/5) (code128Width p (6/5)) (code128Height p 40) targetW targetH
      hnW hnH hW hH
  have hA : 0 < code128Width p (6/5) / 100 * targetW := by positivity
  refine ⟨hp2, by rw [he1, he2]; ring, ?_, ?_⟩
  · rw [he1, he2]
    have h40 : code128Height p 40 = 40 := rfl
    rw [h40]
    field_simp
    ring
  · intro hcontra
    have h40 : code128Height p 40 = 40 := rfl
    rw [h40] at hcontra
    apply code128Width_baseline_ne_100 p
    have : code128Width p (6/5) = 5/2 * 40 := by
      rw [div_eq_iff (by norm_num : (40 : ℚ) ≠ 0)] at hcontra
      linarith
    linarith

/-- C1 witness for the amended theorem: concrete payload and box. -/
theorem barcode_fitter_ratio_witness :
    (barcodeFit (6/5) (code128Width "A" (6/5)) (code128Height "A" 40) 100 50).1 /
      (barcodeFit (6/5) (code128Width "A" (6/5)) (code128Height "A" 40) 100 50).2.1 = 5/2 :=
  (barcode_fitter_ratio "A" 100 50 (by norm_num) (by norm_num)).2.2.1

/-- C1 counterexample to the claim as stated: for the payload "A|1|1|1" with
the program's own target box (width `label_w - 60`, height 100), the module
width floor does not apply, yet the fitted barcode's width/height ratio
differs from the natural baseline ratio of the render at barWidth 1.2 and
barHeight 40 (5/2 versus 99/25 — not a floating-point tolerance issue). -/
theorem aspect_preservation_counterexample :
    ¬ ((6/5 : ℚ) * ((barcodeFit (6/5) (code128Width "A|1|1|1" (6/5)) (code128Height "A|1|1|1" 40)
        (label_w - 60) 100).1 / code128Width "A|1|1|1" (6/5)) < 1/5) ∧
    (barcodeFit (6/5) (code128Width "A|1|1|1" (6/5)) (code128Height "A|1|1|1" 40)
        (label_w - 60) 100).2.2 =
      (6/5 : ℚ) * ((barcodeFit (6/5) (code128Width "A|1|1|1" (6/5)) (code128Height "A|1|1|1" 40)
        (label_w - 60) 100).1 / code128Width "A|1|1|1" (6/5)) ∧
    code128Width "A|1|1|1"
        ((barcodeFit (6/5) (code128Width "A|1|1|1" (6/5)) (code128Height "A|1|1|1" 40)
          (label_w - 60) 100).2.2) /
      code128Height "A|1|1|1"
        ((barcodeFit (6/5) (code128Width "A|1|1|1" (6/5)) (code128Height "A|1|1|1" 40)
          (label_w - 60) 100).2.1) ≠
      code128Width "A|1|1|1" (6/5) / code128Height "A|1|1|1" 40 := by
  have hlen : ("A|1|1|1" : String).length = 7 := rfl
  norm_num [barcodeFit, code128Width, code128Height, code128Modules, label_w, pageW,
    margin_x, hlen]

/-- C3: in every generated label trace there is exactly one barcode draw and
its encoded payload string is character-identical to the human-readable
caption drawn beneath it (the second centred string; the first is the company
header), both equal to `article|quantityDigits|batch|cartonIndex` where
`quantityDigits` is the full digit-sanitized quantity with leading zeros
preserved; the Quantity row meanwhile draws the leading-zero-stripped display
value. -/
theorem barcode_payload_identity (sw : String → String → Nat → ℚ)
    (company_raw artikel_raw qty_raw batch_raw order_raw : Option String)
    (carton_no : String) :
    barcodePayloads (generate_pdf sw company_raw artikel_raw qty_raw batch_raw order_raw
        carton_no).ops =
      [((sanitize_any artikel_raw (some "")).getD "") ++ "|" ++
        ((sanitize_numeric_keep_zeros qty_raw (some "0")).getD "0") ++ "|" ++
        ((sanitize_any batch_raw (some "1")).getD "1") ++ "|" ++ carton_no] ∧
    centredTexts (generate_pdf sw company_raw artikel_raw qty_raw batch_raw order_raw
        carton_no).ops =
      [(sanitize_any company_raw (some "COMPANY_NAME")).getD "COMPANY_NAME",
       ((sanitize_any artikel_raw (some "")).getD "") ++ "|" ++
        ((sanitize_numeric_keep_zeros qty_raw (some "0")).getD "0") ++ "|" ++
        ((sanitize_any batch_raw (some "1")).getD "1") ++ "|" ++ carton_no] ∧
    strip_leading_zeros_keep_zero (some ((sanitize_numeric_keep_zeros qty_raw
        (some "0")).getD "0")) ∈
      drawnTexts (generate_pdf sw company_raw artikel_raw qty_raw batch_raw order_raw
        carton_no).ops := by
  refine ⟨?_, ?_, ?_⟩ <;>
    simp [generate_pdf, drawRowOps, barcodePayloads, centredTexts, drawnTexts]

/-! ## Column resolver lemmas -/

lemma find_idx_from_shift (f : LField) (l : List String) :
    ∀ i, find_idx_from f i l = (find_idx_from f 0 l).map (fun j => j + i) := by
  induction l with
  | nil => intro i; rfl
  | cons a as ih =>
    intro i
    by_cases ha : cellMatches f a
    · simp [find_idx_from, ha]
    · simp only [find_idx_from, if_neg ha]
      rw [ih (i + 1), ih 1, Option.map_map]
      cases find_idx_from f 0 as <;> simp
      omega

lemma find_idx_some_spec (f : LField) :
    ∀ (l : List String) (i : Nat), find_idx f l = some i →
      ∃ c, l[i]? = some c ∧ cellMatches f c = true ∧
        ∀ d ∈ l.take i, cellMatches f d = false := by
  intro l
  induction l with
  | nil => intro i h; simp [find_idx, find_idx_from] at h
  | cons a as ih =>
    intro i h
    rw [find_idx, find_idx_from] at h
    by_cases ha : cellMatches f a
    · rw [if_pos ha] at h
      cases h
      exact ⟨a, by simp, ha, by simp⟩
    · rw [if_neg ha, find_idx_from_shift f as 1] at h
      rcases Option.map_eq_some'.mp h with ⟨j, hj, rfl⟩
      obtain ⟨c, hc1, hc2, hc3⟩ := ih j hj
      refine ⟨c, by simpa using hc1, hc2, ?_⟩
      intro d hd
      rw [List.take_succ_cons] at hd
      rcases List.mem_cons.mp hd with rfl | hd2
      · simpa using ha
      · exact hc3 d hd2

lemma find_idx_none_spec (f : LField) :
    ∀ l : List String, find_idx f l = none → ∀ c ∈ l, cellMatches f c = false := by
  intro l
  induction l with
  | nil => intro _ c hc; simp at hc
  | cons a as ih =>
    intro h c hc
    rw [find_idx, find_idx_from] at h
    by_cases ha : cellMatches f a
    · rw [if_pos ha] at h; cases h
    · rw [if_neg ha, find_idx_from_shift f as 1] at h
      rcases List.mem_cons.mp hc with rfl | hc2
      · simpa using ha
      · exact ih (by simpa using h) c hc2

/-- C7: every logical field of the column map resolves to the index of the
first header cell whose normalized form (trimmed, lowercased,
NFKD-decomposed, combining marks stripped) matches some pattern of the
field's ordered pattern list — so any accented or differently-cased alias
resolves the field to its cell's index — and a field with no matching cell
resolves to `none`. -/
theorem column_resolver_spec (headerRow : List String) (f : LField) :
    colOf (build_column_map headerRow) f =
      find_idx f (headerRow.map (fun h => normalize_for_match (some h))) ∧
    (∀ i, colOf (build_column_map headerRow) f = some i →
      ∃ c, (headerRow.map (fun h => normalize_for_match (some h)))[i]? = some c ∧
        cellMatches f c = true ∧
        ∀ d ∈ (headerRow.map (fun h => normalize_for_match (some h))).take i,
          cellMatches f d = false) ∧
    (colOf (build_column_map headerRow) f = none →
      ∀ c ∈ headerRow.map (fun h => normalize_for_match (some h)),
        cellMatches f c = false) := by
  have heq : colOf (build_column_map headerRow) f =
      find_idx f (headerRow.map (fun h => normalize_for_match (some h))) := by
    cases f <;> rfl
  refine ⟨heq, ?_, ?_⟩
  · intro i hi
    rw [heq] at hi
    exact find_idx_some_spec f _ i hi
  · intro hn
    rw [heq] at hn
    exact find_idx_none_spec f _ hn

/-- C7 witness: in the header `["Bestell-Nr", "Stückzahl", "QTY"]` the
quantity field resolves to index 1 — the accented German alias — and no
earlier cell matches. -/
theorem column_resolver_spec_witness :
    ∃ c, ((["Bestell-Nr", "Stückzahl", "QTY"].map
        (fun h => normalize_for_match (some h)))[1]? = some c ∧
      cellMatches LField.quantity c = true ∧
      ∀ d ∈ (["Bestell-Nr", "Stückzahl", "QTY"].map
        (fun h => normalize_for_match (some h))).take 1,
        cellMatches LField.quantity d = false) :=
  (column_resolver_spec ["Bestell-Nr", "Stückzahl", "QTY"] LField.quantity).2.1 1 (by decide)

/-! ## CSV driver lemmas -/

lemma run_csv_aux_some (cm : ColMap) :
    ∀ rows, run_csv_aux (some cm) rows =
      (rows.filter (fun r => !isBlankRow r)).flatMap (fun r => processDataRow cm r) := by
  intro rows
  induction rows with
  | nil => rfl
  | cons r rest ih =>
    by_cases hb : isBlankRow r
    · simp [run_csv_aux, hb, List.filter_cons, ih]
    · simp [run_csv_aux, hb, List.filter_cons, ih]

/-- C8: blank rows (empty, or all cells whitespace-only) are skipped wherever
they occur: the processed output of `run_csv` is empty when every row is
blank, and otherwise equals the data-row processing of exactly the non-blank
rows after the first one, under the column map built from the first non-blank
row — so skipped rows are never the header and never data rows, the first
non-skipped row is always the header regardless of content, and every later
non-skipped row is a data row. -/
theorem run_csv_row_handling (rows : List (List String)) :
    (rows.filter (fun r => !isBlankRow r) = [] → run_csv rows = []) ∧
    (∀ header dataRows, rows.filter (fun r => !isBlankRow r) = header :: dataRows →
      run_csv rows = dataRows.flatMap (fun r => processDataRow (build_column_map header) r)) := by
  induction rows with
  | nil =>
    exact ⟨fun _ => rfl, fun h ds hds => by simp at hds⟩
  | cons r rest ih =>
    by_cases hb : isBlankRow r
    · constructor
      · intro h
        simp only [List.filter_cons, hb, Bool.not_true, if_neg] at h
        show run_csv_aux none (r :: rest) = []
        rw [run_csv_aux, if_pos hb]
        exact ih.1 (by simpa using h)
      · intro hd ds h
        simp only [List.filter_cons, hb, Bool.not_true] at h
        show run_csv_aux none (r :: rest) = _
        rw [run_csv_aux, if_pos hb]
        exact ih.2 hd ds (by simpa using h)
    · constructor
      · intro h
        rw [List.filter_cons, if_pos (by simpa using hb)] at h
        cases h
      · intro hd ds h
        rw [List.filter_cons, if_pos (by simpa using hb)] at h
        obtain ⟨rfl, hrest⟩ := List.cons_eq_cons.mp h
        show run_csv_aux none (r :: rest) = _
        rw [run_csv_aux, if_neg (by simpa using hb)]
        rw [run_csv_aux_some (build_column_map r) rest, hrest]

/-- C8 witness: a CSV with a whitespace-only first row, a blank row between
header and data, via the main theorem. -/
theorem run_csv_row_handling_witness :
    run_csv [[" "], ["Karton"], [], ["2"]] =
      [["2"]].flatMap (fun r => processDataRow (build_column_map ["Karton"]) r) :=
  (run_csv_row_handling [[" "], ["Karton"], [], ["2"]]).2 ["Karton"] [["2"]] (by decide)

/-- C4: a data row whose carton field digit-sanitizes to "3" expands into
exactly three labels with carton indices "1", "2", "3" in ascending order and
all other fields identical; a carton field with no digit characters, or one
whose parsed value is below 1 (such as "0"), yields exactly one label with
carton index "1". -/
theorem carton_expansion (cm : ColMap) (row : List String) :
    (sanitize_numeric_keep_zeros (some (get_cell row cm.carton "1")) (some "1") = some "3" →
      processDataRow cm row =
        [{ company := get_cell row cm.company "COMPANY_NAME",
           artikel := get_cell row cm.article "",
           qty := get_cell row cm.quantity "0",
           batch := get_cell row cm.batch "1",
           order := get_cell row cm.order "",
           carton := "1" },
         { company := get_cell row cm.company "COMPANY_NAME",
           artikel := get_cell row cm.article "",
           qty := get_cell row cm.quantity "0",
           batch := get_cell row cm.batch "1",
           order := get_cell row cm.order "",
           carton := "2" },
         { company := get_cell row cm.company "COMPANY_NAME",
           artikel := get_cell row cm.article "",
           qty := get_cell row cm.quantity "0",
           batch := get_cell row cm.batch "1",
           order := get_cell row cm.order "",
           carton := "3" }]) ∧
    (digitChars (get_cell row cm.carton "1") = [] →
      processDataRow cm row =
        [{ company := get_cell row cm.company "COMPANY_NAME",
           artikel := get_cell row cm.article "",
           qty := get_cell row cm.quantity "0",
           batch := get_cell row cm.batch "1",
           order := get_cell row cm.order "",
           carton := "1" }]) ∧
    (∀ ds : String,
      sanitize_numeric_keep_zeros (some (get_cell row cm.carton "1")) (some "1") = some ds →
      intOr1 ds < 1 →
      processDataRow cm row =
        [{ company := get_cell row cm.company "COMPANY_NAME",
           artikel := get_cell row cm.article "",
           qty := get_cell row cm.quantity "0",
           batch := get_cell row cm.batch "1",
           order := get_cell row cm.order "",
           carton := "1" }]) := by
  refine ⟨?_, ?_, ?_⟩
  · intro h
    simp only [processDataRow, h, Option.getD_some]
    rfl
  · intro h
    have hs : sanitize_numeric_keep_zeros (some (get_cell row cm.carton "1")) (some "1") =
        some "1" := by
      simp [sanitize_numeric_keep_zeros, h]
    simp only [processDataRow, hs, Option.getD_some]
    rfl
  · intro ds hds hlt
    simp only [processDataRow, hds, Option.getD_some]
    by_cases hde : ds = ""
    · simp only [if_pos hde]
      rfl
    · simp only [if_neg hde, if_pos hlt]
      rfl

/-- C4 witness: carton cells "3", "abc" and "0" on a one-column row, via the
three branches of the main theorem. -/
theorem carton_expansion_witness :
    processDataRow ⟨none, none, none, none, none, some 0⟩ ["3"] =
      [⟨"COMPANY_NAME", "", "0", "1", "", "1"⟩, ⟨"COMPANY_NAME", "", "0", "1", "", "2"⟩,
       ⟨"COMPANY_NAME", "", "0", "1", "", "3"⟩] ∧
    processDataRow ⟨none, none, none, none, none, some 0⟩ ["abc"] =
      [⟨"COMPANY_NAME", "", "0", "1", "", "1"⟩] ∧
    processDataRow ⟨none, none, none, none, none, some 0⟩ ["0"] =
      [⟨"COMPANY_NAME", "", "0", "1", "", "1"⟩] := by
  refine ⟨?_, ?_, ?_⟩
  · exact (carton_expansion ⟨none, none, none, none, none, some 0⟩ ["3"]).1 (by decide)
  · exact (carton_expansion ⟨none, none, none, none, none, some 0⟩ ["abc"]).2.1 (by decide)
  · exact (carton_expansion ⟨none, none, none, none, none, some 0⟩ ["0"]).2.2 "0" (by decide)
      (by decide)

/-- C10: the carton total of a data row is computed from the concatenation of
the decimal digit characters of the carton cell in their original order,
every non-digit character (signs and separators included) ignored, clamped
below at 1; only a cell with no digits at all falls back to the default total
1.  Concretely, a carton cell "-3" yields labels "1", "2", "3" and a cell
"1x2" yields 12 labels. -/
theorem carton_total_from_digit_concatenation (cm : ColMap) (row : List String) :
    ((processDataRow cm row).length =
      if digitChars (get_cell row cm.carton "1") = [] then 1
      else max 1 (digitsToNat (digitChars (get_cell row cm.carton "1")))) ∧
    ((processDataRow cm row).map (fun a => a.carton) =
      (List.range' 1 (if digitChars (get_cell row cm.carton "1") = [] then 1
        else max 1 (digitsToNat (digitChars (get_cell row cm.carton "1"))))).map
        (fun k => toString k)) ∧
    (processDataRow ⟨none, none, none, none, none, some 0⟩ ["-3"]).map (fun a => a.carton) =
      ["1", "2", "3"] ∧
    (processDataRow ⟨none, none, none, none, none, some 0⟩ ["1x2"]).length = 12 := by
  have hPD : processDataRow cm row =
      (List.range' 1 (if digitChars (get_cell row cm.carton "1") = [] then 1
        else max 1 (digitsToNat (digitChars (get_cell row cm.carton "1"))))).map
        (fun k =>
          { company := get_cell row cm.company "COMPANY_NAME",
            artikel := get_cell row cm.article "",
            qty := get_cell row cm.quantity "0",
            batch := get_cell row cm.batch "1",
            order := get_cell row cm.order "",
            carton := toString k }) := by
    by_cases hds : digitChars (get_cell row cm.carton "1") = []
    · have hsan : sanitize_numeric_keep_zeros (some (get_cell row cm.carton "1")) (some "1") =
          some "1" := by
        simp [sanitize_numeric_keep_zeros, hds]
      simp only [processDataRow, hsan, Option.getD_some, if_pos hds]
      rfl
    · have hmkne : String.mk (digitChars (get_cell row cm.carton "1")) ≠ "" :=
        fun h => hds ((mk_eq_empty_iff _).mp h)
      have hsan : sanitize_numeric_keep_zeros (some (get_cell row cm.carton "1")) (some "1") =
          some (String.mk (digitChars (get_cell row cm.carton "1"))) := by
        simp only [sanitize_numeric_keep_zeros]
        rw [if_neg hmkne]
      have hall : (String.mk (digitChars (get_cell row cm.carton "1"))).toList.all
          Char.isDigit = true := by
        apply List.all_eq_true.mpr
        intro c hc
        have hmem : c ∈ digitChars (get_cell row cm.carton "1") := hc
        exact (List.mem_filter.mp hmem).2
      have hint : intOr1 (String.mk (digitChars (get_cell row cm.carton "1"))) =
          digitsToNat (digitChars (get_cell row cm.carton "1")) := by
        rw [intOr1, if_pos ⟨hmkne, hall⟩]
        rfl
      simp only [processDataRow, hsan, Option.getD_some, if_neg hmkne, hint, if_neg hds]
      congr 1
      rcases Nat.lt_or_ge (digitsToNat (digitChars (get_cell row cm.carton "1"))) 1 with hlt | hge
      · rw [if_pos hlt, Nat.max_eq_left (by omega)]
      · rw [if_neg (Nat.not_lt.mpr hge), Nat.max_eq_right hge]
  refine ⟨?_, ?_, by decide, by decide⟩
  · rw [hPD]
    simp [List.length_range']
  · rw [hPD, List.map_map]
    rfl
